import Mathlib

/-!
Verification of the relayer utility module (src/unnamed/part_000) of
ts-relayer: height/time arithmetic, event parsing, light-client state
building, fee scaling and pending-packet classification.

The TypeScript source operates on long.js `Long` values (exact 64-bit
integers) and JS numbers.  We embed `Long` values as `Nat` (their exact
unsigned value; operations that wrap in 64 bits take an explicit
`% 18446744073709551616`).  JS semantic quirks that the source relies on
are modelled explicitly:
  * `x > y` applied to two `Long` objects: `Long` defines no `valueOf`,
    so both operands are converted to primitives via `toString` and the
    comparison is JS string comparison (lexicographic by code unit) of
    the decimal representations (`jsLongGt`);
  * `Array.prototype.map(f, thisArg)` passes `(element, index, array)`
    to `f`; a second argument to `map` is the `this` binding, not an
    argument of `f`;
  * string truthiness: the empty string is falsy, every other string is
    truthy (`jsTruthyStr`);
  * `Long.toNumber()` is modelled as the identity on the exact value
    (exact for values below 2^53; the claims under study are settled on
    inputs in that range).
-/

namespace TsRelayer

/-- JS string comparison (`<` on two strings): lexicographic by code unit. -/
def strLtChars : List Char → List Char → Bool
  | [], [] => false
  | [], _ :: _ => true
  | _ :: _, [] => false
  | a :: as, b :: bs =>
    if a.val < b.val then true
    else if b.val < a.val then false
    else strLtChars as bs

/-- The JS comparison `x > y` on two long.js `Long` values: `Long` has no
`valueOf`, so both operands are coerced to their decimal strings and the
strings are compared lexicographically (`x > y` is `yStr < xStr`). -/
def jsLongGt (x y : Nat) : Bool := strLtChars (Nat.repr y).data (Nat.repr x).data

/-- Value of a list of decimal digit characters. -/
def digitsToNat (ds : List Char) : Nat :=
  ds.foldl (fun n c => n * 10 + (c.toNat - 48)) 0

/-- A decimal digit character (regex class [0-9]). -/
def isDigitChar (c : Char) : Bool := '0' ≤ c && c ≤ '9'

/-- JS `Number.parseInt(s, 10)` restricted to the inputs the program feeds
it: value of the longest leading digit run, `none` (JS `NaN`) when the
string does not start with a digit. -/
def jsParseInt (s : String) : Option Nat :=
  let ds := s.data.takeWhile isDigitChar
  if ds.isEmpty then none else some (digitsToNat ds)

/-- JS `s.split('-')` on the character list: splits at every '-' keeping
empty pieces (so `"".split` is `[""]` and `"a-".split` is `["a", ""]`). -/
def jsSplitDash : List Char → List (List Char)
  | [] => [[]]
  | c :: rest =>
    let r := jsSplitDash rest
    if c = '-' then [] :: r
    else
      match r with
      | [] => [[c]]
      | h :: t => (c :: h) :: t

/-- JS `s.split('-')`. -/
def jsSplit (s : String) : List String := (jsSplitDash s.data).map String.mk

/-- JS truthiness of a `string | undefined` value: `undefined` and the
empty string are falsy, all other strings truthy. -/
def jsTruthyStr : Option String → Bool
  | none => false
  | some s => s ≠ ""

/-- `toUtf8` from @cosmjs/encoding encodes a string to its UTF-8 bytes.
We model a byte string by its decoded character sequence, which the
encoding determines injectively; the claims only inspect emptiness and
equality of encodings. -/
def toUtf8 (s : String) : List Char := s.data

/-- long.js `Long.fromString` on the decimal strings the program feeds it:
the digit-run value reduced into 64 bits (non-numeric garbage collapses
to 0 in long.js; it parses via `parseInt` chunks). -/
def longFromString (s : String) : Nat :=
  ((jsParseInt s).getD 0) % 18446744073709551616

/-- Height record of ../codec/ibc/core/client/v1/client.
Modelled from the spec: the codec file is not under src/; §3 defines
Height as a pair of u64 `revisionNumber`, `revisionHeight`, and
`Height.fromPartial` keeps the supplied fields. -/
structure Height where
  revisionNumber : Nat
  revisionHeight : Nat
  deriving DecidableEq, Repr

/-- Packet record of ../codec/ibc/core/channel/v1/channel.
Modelled from the spec: the codec file is not under src/; §3 defines the
Packet record with `timeoutHeight`/`timeoutTimestamp` optional and §4.2
says `packet_data` and `packet_sequence` are "absent if missing", so
`Packet.fromPartial` is modelled as passing absent optional fields
through as absent. -/
structure Packet where
  sequence : Option Nat
  sourcePort : Option String
  sourceChannel : Option String
  destinationPort : Option String
  destinationChannel : Option String
  data : Option (List Char)
  timeoutHeight : Option Height
  timeoutTimestamp : Option Nat
  deriving DecidableEq, Repr

/-- Ack record (part_000 lines 23-26). -/
structure Ack where
  acknowledgement : List Char
  originalPacket : Packet
  deriving DecidableEq, Repr

/-- PacketWithMetadata from ./endpoint.
Modelled from the spec: the file is not under src/; §3 describes it as a
`Packet` plus relay bookkeeping (the raw event height) that the core
treats as opaque. -/
structure PacketWithMetadata where
  packet : Packet
  height : Nat
  deriving DecidableEq, Repr

/-- ParsedAttribute (part_000 lines 184-187). -/
structure ParsedAttribute where
  key : String
  value : String
  deriving DecidableEq, Repr

/-- ParsedEvent (part_000 lines 189-192). -/
structure ParsedEvent where
  type : String
  attributes : List ParsedAttribute
  deriving DecidableEq, Repr

/-- The attribute object built by `attributes.reduce` in parsePacket and
parseAck: a fold that overwrites on duplicate keys (last write wins).
`attrGet attrs k` is the value the resulting object holds at key `k`. -/
def attrGet (attrs : List ParsedAttribute) (k : String) : Option String :=
  attrs.foldl (fun acc a => if a.key == k then some a.value else acc) none

/-- `may` (part_000 lines 63-68): runs the transform if the value is
defined, otherwise returns undefined. -/
def may (transform : α → β) (value : Option α) : Option β :=
  value.map transform

/-- subtractBlock (part_000 lines 45-50): same revision number,
`revisionHeight.subtract(count)`.  long.js subtraction is unchecked and
wraps in 64 bits (18446744073709551616 = 2^64). -/
def subtractBlock (height : Height) (count : Nat) : Height :=
  { revisionNumber := height.revisionNumber,
    revisionHeight :=
      (height.revisionHeight + (18446744073709551616 - count % 18446744073709551616))
        % 18446744073709551616 }

/-- Whole-input match of the capture group `[1-9][0-9]*` of regexRevNum. -/
def matchRevDigits : List Char → Bool
  | [] => false
  | c :: rest => (isDigitChar c && c ≠ '0') && rest.all isDigitChar

/-- Leftmost match of the regex `-([1-9][0-9]*)$` (part_000 line 52):
scan start positions left to right; a match needs a '-' followed by a
nonempty digit run with nonzero first digit reaching the end of the
string; returns the capture group. -/
def findRevSuffix : List Char → Option (List Char)
  | [] => none
  | c :: rest =>
    if c = '-' && matchRevDigits rest then some rest
    else findRevSuffix rest

/-- parseRevisionNumber (part_000 lines 54-60): value of the regex
capture via `Long.fromString`, `Long(0)` when there is no match. -/
def parseRevisionNumber (chainId : String) : Nat :=
  match findRevSuffix chainId.data with
  | some ds => digitsToNat ds % 18446744073709551616
  | none => 0

/-- heightGreater (part_000 lines 320-329).  The source comment says
"return true if a > b, or a undefined".  The body compares the `Long`
fields with the JS `>` operator (string comparison, `jsLongGt`), and the
revision numbers for equality via `toNumber()` (modelled exact). -/
def heightGreater (a : Option Height) (b : Height) : Bool :=
  match a with
  | none => true
  | some a =>
    let valid := jsLongGt a.revisionNumber b.revisionNumber
    if a.revisionNumber == b.revisionNumber then
      jsLongGt a.revisionHeight b.revisionHeight
    else valid

/-- timeGreater (part_000 lines 333-339): true when `a` is undefined or
zero, otherwise `a.toNumber() > b * 1_000_000_000` (a in nanoseconds, b
in seconds; the comparison is modelled exactly, which agrees with the
double arithmetic for values below 2^53). -/
def timeGreater (a : Option Nat) (b : Nat) : Bool :=
  match a with
  | none => true
  | some a => if a == 0 then true else decide (a > b * 1000000000)

/-- The validity test applied per packet inside splitPendingPackets
(part_000 lines 354-356). -/
def packetValid (currentHeight : Height) (currentTime : Nat)
    (packet : PacketWithMetadata) : Bool :=
  heightGreater packet.packet.timeoutHeight currentHeight &&
    timeGreater packet.packet.timeoutTimestamp currentTime

/-- splitPendingPackets (part_000 lines 344-372): a reduce over the
packets appending each to `toSubmit` when valid and to `toTimeout`
otherwise. -/
def splitPendingPackets (currentHeight : Height) (currentTime : Nat)
    (packets : List PacketWithMetadata) :
    List PacketWithMetadata × List PacketWithMetadata :=
  packets.foldl
    (fun acc packet =>
      if packetValid currentHeight currentTime packet then
        (acc.1 ++ [packet], acc.2)
      else
        (acc.1, acc.2 ++ [packet]))
    ([], [])

/-- parsePacket (part_000 lines 203-248).  Throws on a non-send_packet
event; otherwise folds the attributes into an object, splits
`packet_timeout_height` on '-', and assembles the packet.  The
`console.log` on lines 215-217 is a side effect with no influence on the
returned value and is not modelled.  `data` is set only when the
`packet_data` attribute is truthy (present and nonempty);
`timeoutHeight` only when the first two split components are truthy. -/
def parsePacket (ev : ParsedEvent) : Except String Packet :=
  if ev.type ≠ "send_packet" then
    Except.error ("Cannot parse event of type " ++ ev.type)
  else
    let parts : List String :=
      match attrGet ev.attributes "packet_timeout_height" with
      | some s => jsSplit s
      | none => []
    let timeoutRevisionNumber := parts[0]?
    let timeoutRevisionHeight := parts[1]?
    Except.ok
      { sequence := may longFromString (attrGet ev.attributes "packet_sequence"),
        sourcePort := attrGet ev.attributes "packet_src_port",
        sourceChannel := attrGet ev.attributes "packet_src_channel",
        destinationPort := attrGet ev.attributes "packet_dst_port",
        destinationChannel := attrGet ev.attributes "packet_dst_channel",
        data :=
          if jsTruthyStr (attrGet ev.attributes "packet_data") then
            some (toUtf8 ((attrGet ev.attributes "packet_data").getD ""))
          else none,
        timeoutHeight :=
          if jsTruthyStr timeoutRevisionNumber && jsTruthyStr timeoutRevisionHeight then
            some { revisionNumber := longFromString (timeoutRevisionNumber.getD ""),
                   revisionHeight := longFromString (timeoutRevisionHeight.getD "") }
          else none,
        timeoutTimestamp :=
          may longFromString (attrGet ev.attributes "packet_timeout_timestamp") }

/-- parseAck (part_000 lines 259-303).  Same shape as parsePacket for a
write_acknowledgement event, but `data` and `acknowledgement` default to
the UTF-8 encoding of the empty string when the attribute is missing
(`?? ''`), so they are always present. -/
def parseAck (ev : ParsedEvent) : Except String Ack :=
  if ev.type ≠ "write_acknowledgement" then
    Except.error ("Cannot parse event of type " ++ ev.type)
  else
    let parts : List String :=
      match attrGet ev.attributes "packet_timeout_height" with
      | some s => jsSplit s
      | none => []
    let timeoutRevisionNumber := parts[0]?
    let timeoutRevisionHeight := parts[1]?
    Except.ok
      { acknowledgement := toUtf8 ((attrGet ev.attributes "packet_ack").getD ""),
        originalPacket :=
          { sequence := may longFromString (attrGet ev.attributes "packet_sequence"),
            sourcePort := attrGet ev.attributes "packet_src_port",
            sourceChannel := attrGet ev.attributes "packet_src_channel",
            destinationPort := attrGet ev.attributes "packet_dst_port",
            destinationChannel := attrGet ev.attributes "packet_dst_channel",
            data := some (toUtf8 ((attrGet ev.attributes "packet_data").getD "")),
            timeoutHeight :=
              if jsTruthyStr timeoutRevisionNumber && jsTruthyStr timeoutRevisionHeight then
                some { revisionNumber := longFromString (timeoutRevisionNumber.getD ""),
                       revisionHeight := longFromString (timeoutRevisionHeight.getD "") }
              else none,
            timeoutTimestamp :=
              may longFromString (attrGet ev.attributes "packet_timeout_timestamp") } }

/-- Coin from @cosmjs/launchpad: a decimal amount string and a denom. -/
structure Coin where
  amount : String
  denom : String
  deriving DecidableEq, Repr

/-- StdFee from @cosmjs/launchpad: a gas string and a coin list. -/
structure StdFee where
  gas : String
  amount : List Coin
  deriving DecidableEq, Repr

/-- multiplyCoin (part_000 lines 314-317): `parseInt(amount, 10) * mult`
re-rendered as a string (`NaN` when the amount does not parse), denom
unchanged. -/
def multiplyCoin (c : Coin) (mult : Nat) : Coin :=
  match jsParseInt c.amount with
  | some n => { amount := Nat.repr (n * mult), denom := c.denom }
  | none => { amount := "NaN", denom := c.denom }

/-- multiplyFees (part_000 lines 305-312).  The gas is scaled by `mult`,
but the coins go through `amount.map(multiplyCoin, mult)`:
`Array.prototype.map` passes `(element, index, array)` to its callback
and binds the second map argument as `this`, so `multiplyCoin` receives
each coin's array index as its `mult` argument. -/
def multiplyFees (fee : StdFee) (mult : Nat) : StdFee :=
  { gas :=
      match jsParseInt fee.gas with
      | some g => Nat.repr (g * mult)
      | none => "NaN",
    amount := fee.amount.enum.map (fun p => multiplyCoin p.2 p.1) }

/-- HashOp enum of ../codec/confio/proofs.
Modelled from the spec: the codec file is not under src/; §3 names
SHA-256 and no-hash. -/
inductive HashOp where
  | NO_HASH
  | SHA256
  deriving DecidableEq, Repr

/-- LengthOp enum of ../codec/confio/proofs.
Modelled from the spec: the codec file is not under src/; §3 names the
proto-varint length encoding. -/
inductive LengthOp where
  | NO_PREFIX
  | VAR_PROTO
  deriving DecidableEq, Repr

/-- Leaf operation of a proof spec (field `prefix` of the source is
renamed `prefixBytes` here). -/
structure LeafOp where
  prefixBytes : List Nat
  hash : HashOp
  prehashValue : HashOp
  prehashKey : HashOp
  length : LengthOp
  deriving DecidableEq, Repr

/-- Inner-node spec of a proof spec. -/
structure InnerSpec where
  childOrder : List Nat
  minPrefixLength : Nat
  maxPrefixLength : Nat
  childSize : Nat
  hash : HashOp
  deriving DecidableEq, Repr

/-- ProofSpec: leaf spec plus inner spec, as the two literals in
buildClientState spell out. -/
structure ProofSpec where
  leafSpec : LeafOp
  innerSpec : InnerSpec
  deriving DecidableEq, Repr

/-- Fraction (trust level) with u64 numerator and denominator. -/
structure Fraction where
  numerator : Nat
  denominator : Nat
  deriving DecidableEq, Repr

/-- Duration in whole seconds (the source builds
`{seconds: new Long(x)}`; `new Long(x)` keeps only the low 32 bits of
`x`, modelled as `x % 2^32` — exact for the in-range inputs). -/
structure Duration where
  seconds : Nat
  deriving DecidableEq, Repr

/-- `new Long(x)` (single-argument Long constructor): only the low 32
bits of `x` are stored (high word 0). -/
def jsNewLong (x : Nat) : Nat := x % 4294967296

/-- Tendermint ClientState of ../codec/ibc/lightclients/tendermint.
Modelled from the spec: the codec file is not under src/; §3 lists
exactly these fields, and `fromPartial` keeps the supplied fields. -/
structure ClientState where
  chainId : String
  trustLevel : Fraction
  trustingPeriod : Duration
  unbondingPeriod : Duration
  maxClockDrift : Duration
  latestHeight : Height
  proofSpecs : List ProofSpec
  upgradePath : List String
  allowUpdateAfterExpiry : Bool
  allowUpdateAfterMisbehaviour : Bool
  deriving DecidableEq, Repr

/-- buildClientState (part_000 lines 120-182): assembles the fixed
trust parameters, the two proof-spec literals `iavlSpec` and
`tendermintSpec` (in that order), the caller's periods and height, the
upgrade path and the two false allow-update flags. -/
def buildClientState (chainId : String) (unbondingPeriodSec : Nat)
    (trustPeriodSec : Nat) (height : Height) : ClientState :=
  let iavlSpec : ProofSpec :=
    { leafSpec :=
        { prefixBytes := [0],
          hash := HashOp.SHA256,
          prehashValue := HashOp.SHA256,
          prehashKey := HashOp.NO_HASH,
          length := LengthOp.VAR_PROTO },
      innerSpec :=
        { childOrder := [0, 1],
          minPrefixLength := 4,
          maxPrefixLength := 12,
          childSize := 33,
          hash := HashOp.SHA256 } }
  let tendermintSpec : ProofSpec :=
    { leafSpec :=
        { prefixBytes := [0],
          hash := HashOp.SHA256,
          prehashValue := HashOp.SHA256,
          prehashKey := HashOp.NO_HASH,
          length := LengthOp.VAR_PROTO },
      innerSpec :=
        { childOrder := [0, 1],
          minPrefixLength := 1,
          maxPrefixLength := 1,
          childSize := 32,
          hash := HashOp.SHA256 } }
  { chainId := chainId,
    trustLevel := { numerator := 1, denominator := 3 },
    unbondingPeriod := { seconds := jsNewLong unbondingPeriodSec },
    trustingPeriod := { seconds := jsNewLong trustPeriodSec },
    maxClockDrift := { seconds := 20 },
    latestHeight := height,
    proofSpecs := [iavlSpec, tendermintSpec],
    upgradePath := ["upgrade", "upgradedIBCState"],
    allowUpdateAfterExpiry := false,
    allowUpdateAfterMisbehaviour := false }

/-! Spec-side definitions, written from the specification's words, for
the claims that compare the source against a stated contract. -/

/-- The spec's reading of `subtractHeight(h, n)`: same revision,
`revisionHeight - n`, failing (`none`, standing for ArithmeticError)
when the subtraction would go below zero. -/
def subtractHeightSpec (h : Height) (n : Nat) : Option Height :=
  if n ≤ h.revisionHeight then
    some { revisionNumber := h.revisionNumber, revisionHeight := h.revisionHeight - n }
  else none

/-- The maximal trailing run of decimal digits of a string's characters. -/
def trailingDigitRun (cs : List Char) : List Char :=
  (cs.reverse.takeWhile isDigitChar).reverse

/-- The spec's reading of parseRevisionNumber: the number in a trailing
'-<digits>' suffix (any nonempty digit run preceded by '-'), 0 when no
such suffix is present. -/
def claimRevisionNumber (s : String) : Nat :=
  if trailingDigitRun s.data ≠ [] ∧
      (s.data.take (s.data.length - (trailingDigitRun s.data).length)).getLast? = some '-' then
    digitsToNat (trailingDigitRun s.data)
  else 0

/-- The amended reading of parseRevisionNumber: as `claimRevisionNumber`
but the suffix is only recognised when its first digit is nonzero, and
the value is reduced to u64 range as `Long.fromString` does. -/
def amendedRevisionNumber (s : String) : Nat :=
  if trailingDigitRun s.data ≠ [] ∧
      (s.data.take (s.data.length - (trailingDigitRun s.data).length)).getLast? = some '-' ∧
      (trailingDigitRun s.data).head? ≠ some '0' then
    digitsToNat (trailingDigitRun s.data) % 18446744073709551616
  else 0

/-! Theorems settling the claims. -/

/-- C1: the claim states that splitPendingPackets submits a packet iff
both expiry dimensions are valid, the height dimension being valid when
timeoutHeight is absent or greater than currentHeight.  The code fails
this: the `>` on Long fields falls back to JS string comparison, so a
packet whose timeoutHeight {1, 9} is below the current height {1, 10}
(and therefore expired, belonging to toTimeout) is placed in toSubmit
because the string "9" exceeds the string "10". -/
theorem c1_splitPendingPackets_height_string_cmp_bug :
    splitPendingPackets { revisionNumber := 1, revisionHeight := 10 } 0
      [{ packet :=
          { sequence := none, sourcePort := none, sourceChannel := none,
            destinationPort := none, destinationChannel := none, data := none,
            timeoutHeight := some { revisionNumber := 1, revisionHeight := 9 },
            timeoutTimestamp := none },
         height := 0 }] =
      ([{ packet :=
            { sequence := none, sourcePort := none, sourceChannel := none,
              destinationPort := none, destinationChannel := none, data := none,
              timeoutHeight := some { revisionNumber := 1, revisionHeight := 9 },
              timeoutTimestamp := none },
          height := 0 }], []) ∧
    (9 : Nat) < 10 := by
  exact ⟨rfl, by norm_num⟩

/-- C2: the claim states that with equal revision numbers the height
dimension is valid iff the timeout's revisionHeight strictly exceeds the
current revisionHeight.  The code compares the Long fields with the JS
`>` operator, which coerces both to decimal strings; at revisionHeight
9 versus 10 it answers true although 9 < 10. -/
theorem c2_heightGreater_string_cmp_bug :
    heightGreater (some { revisionNumber := 1, revisionHeight := 9 })
      { revisionNumber := 1, revisionHeight := 10 } = true ∧
    (9 : Nat) < 10 := by
  exact ⟨rfl, by norm_num⟩

/-- C4: the claim states multiplyFees scales every coin amount by the
factor, in particular mapping the example fee to amount "100".  The code
passes `multiplyCoin` straight to `Array.prototype.map` with the factor
in the `thisArg` slot, so each coin is multiplied by its index instead:
the example's single coin (index 0) comes back as "0", while
`multiplyCoin` itself, applied directly, does return "100". -/
theorem c4_multiplyFees_index_bug :
    multiplyFees { gas := "100000", amount := [{ amount := "50", denom := "x" }] } 2 =
      { gas := "200000", amount := [{ amount := "0", denom := "x" }] } ∧
    multiplyCoin { amount := "50", denom := "x" } 2 = { amount := "100", denom := "x" } := by
  exact ⟨rfl, rfl⟩

/-- C5 counterexample: the claim states subtractHeight fails with
ArithmeticError when the subtraction would go below zero.  At height
{0, 0} and count 1 the spec-side reading fails, but the source's
subtractBlock raises nothing: long.js subtraction wraps in 64 bits and
returns revisionHeight 2^64 - 1. -/
theorem c5_subtractBlock_counterexample :
    subtractHeightSpec { revisionNumber := 0, revisionHeight := 0 } 1 = none ∧
    subtractBlock { revisionNumber := 0, revisionHeight := 0 } 1 =
      { revisionNumber := 0, revisionHeight := 18446744073709551615 } := by
  exact ⟨rfl, rfl⟩

/-- C6: for all inputs, buildClientState fixes proofSpecs =
[iavlSpec, tendermintSpec] with the stated numeric parameters,
trustLevel 1/3, maxClockDrift 20 s, latestHeight = height, the upgrade
path, and both allow-update flags false. -/
theorem c6_buildClientState_fixed_params (chainId : String)
    (unbondingPeriodSec trustPeriodSec : Nat) (height : Height) :
    (buildClientState chainId unbondingPeriodSec trustPeriodSec height).proofSpecs =
      [{ leafSpec :=
           { prefixBytes := [0], hash := HashOp.SHA256, prehashValue := HashOp.SHA256,
             prehashKey := HashOp.NO_HASH, length := LengthOp.VAR_PROTO },
         innerSpec :=
           { childOrder := [0, 1], minPrefixLength := 4, maxPrefixLength := 12,
             childSize := 33, hash := HashOp.SHA256 } },
       { leafSpec :=
           { prefixBytes := [0], hash := HashOp.SHA256, prehashValue := HashOp.SHA256,
             prehashKey := HashOp.NO_HASH, length := LengthOp.VAR_PROTO },
         innerSpec :=
           { childOrder := [0, 1], minPrefixLength := 1, maxPrefixLength := 1,
             childSize := 32, hash := HashOp.SHA256 } }] ∧
    (buildClientState chainId unbondingPeriodSec trustPeriodSec height).trustLevel =
      { numerator := 1, denominator := 3 } ∧
    (buildClientState chainId unbondingPeriodSec trustPeriodSec height).maxClockDrift =
      { seconds := 20 } ∧
    (buildClientState chainId unbondingPeriodSec trustPeriodSec height).latestHeight =
      height ∧
    (buildClientState chainId unbondingPeriodSec trustPeriodSec height).upgradePath =
      ["upgrade", "upgradedIBCState"] ∧
    (buildClientState chainId unbondingPeriodSec trustPeriodSec height).allowUpdateAfterExpiry =
      false ∧
    (buildClientState chainId unbondingPeriodSec trustPeriodSec height).allowUpdateAfterMisbehaviour =
      false := by
  exact ⟨rfl, rfl, rfl, rfl, rfl, rfl, rfl⟩

/-- C9 counterexample: the claim reads the suffix as '-<digits>'.  On
"chain-07" that reading yields 7, but the source regex requires the
first suffix digit to be nonzero ([1-9][0-9]*), so parseRevisionNumber
returns 0. -/
theorem c9_parseRevisionNumber_counterexample :
    claimRevisionNumber "chain-07" = 7 ∧ parseRevisionNumber "chain-07" = 0 := by
  exact ⟨rfl, rfl⟩

/-- The UTF-8 encoding of the empty string is the empty byte string. -/
theorem toUtf8_empty : toUtf8 "" = [] := rfl

/-- C7: for every event whose type is not send_packet, parsePacket fails
with the UnexpectedEventType error rather than returning a packet. -/
theorem c7_parsePacket_wrong_type (ev : ParsedEvent) (h : ev.type ≠ "send_packet") :
    parsePacket ev = Except.error ("Cannot parse event of type " ++ ev.type) := by
  unfold parsePacket
  rw [if_pos h]

/-- Witness for C7 at the concrete event of type "other". -/
theorem c7_parsePacket_wrong_type_witness :
    (ParsedEvent.mk "other" []).type ≠ "send_packet" ∧
    parsePacket (ParsedEvent.mk "other" []) =
      Except.error ("Cannot parse event of type " ++ (ParsedEvent.mk "other" []).type) :=
  ⟨by decide, c7_parsePacket_wrong_type (ParsedEvent.mk "other" []) (by decide)⟩

/-- C10: on a write_acknowledgement event lacking packet_data, parseAck
returns an originalPacket whose data is the present empty byte string,
while parsePacket on a send_packet event lacking packet_data leaves the
data field absent: the two parsers disagree on missing packet_data. -/
theorem c10_parse_data_asymmetry (ev1 ev2 : ParsedEvent)
    (h1 : ev1.type = "write_acknowledgement")
    (h2 : attrGet ev1.attributes "packet_data" = none)
    (h3 : ev2.type = "send_packet")
    (h4 : attrGet ev2.attributes "packet_data" = none) :
    ((parseAck ev1).toOption.map fun a => a.originalPacket.data) = some (some []) ∧
    ((parsePacket ev2).toOption.map Packet.data) = some none := by
  constructor
  · simp [parseAck, h1, h2, toUtf8_empty, Except.toOption]
  · simp [parsePacket, h3, h4, jsTruthyStr, Except.toOption]

/-- Witness for C10 at concrete attribute-less events of each type. -/
theorem c10_parse_data_asymmetry_witness :
    (ParsedEvent.mk "write_acknowledgement" []).type = "write_acknowledgement" ∧
    attrGet (ParsedEvent.mk "write_acknowledgement" []).attributes "packet_data" = none ∧
    (ParsedEvent.mk "send_packet" []).type = "send_packet" ∧
    attrGet (ParsedEvent.mk "send_packet" []).attributes "packet_data" = none ∧
    (((parseAck (ParsedEvent.mk "write_acknowledgement" [])).toOption.map
        fun a => a.originalPacket.data) = some (some []) ∧
     ((parsePacket (ParsedEvent.mk "send_packet" [])).toOption.map Packet.data) = some none) :=
  ⟨rfl, rfl, rfl, rfl,
    c10_parse_data_asymmetry (ParsedEvent.mk "write_acknowledgement" [])
      (ParsedEvent.mk "send_packet" []) rfl rfl rfl rfl⟩

/-- C8: for every send_packet event that parsePacket accepts, the
returned packet has a present timeoutHeight exactly when the
packet_timeout_height attribute is present and splitting it on the
literal '-' yields a nonempty first half (revision number) and a
nonempty second half (revision height); a missing attribute or a missing
half yields an absent timeoutHeight. -/
theorem c8_parsePacket_timeoutHeight_iff (ev : ParsedEvent) (p : Packet)
    (hok : parsePacket ev = Except.ok p) :
    p.timeoutHeight.isSome = true ↔
      ∃ s, attrGet ev.attributes "packet_timeout_height" = some s ∧
        jsTruthyStr (jsSplit s)[0]? = true ∧ jsTruthyStr (jsSplit s)[1]? = true := by
  unfold parsePacket at hok
  split at hok
  · exact absurd hok (by simp)
  · injection hok with hok
    subst hok
    cases hatt : attrGet ev.attributes "packet_timeout_height" with
    | none => simp [hatt, jsTruthyStr]
    | some s =>
      simp only [hatt]
      cases h0 : jsTruthyStr (jsSplit s)[0]? <;>
        cases h1 : jsTruthyStr (jsSplit s)[1]? <;>
          simp [h0, h1]

/-- Witness for C8 at a concrete event carrying timeout height "1-2". -/
theorem c8_parsePacket_timeoutHeight_iff_witness :
    parsePacket
        (ParsedEvent.mk "send_packet" [ParsedAttribute.mk "packet_timeout_height" "1-2"]) =
      Except.ok (Packet.mk none none none none none none (some (Height.mk 1 2)) none) ∧
    ((Packet.mk none none none none none none (some (Height.mk 1 2)) none).timeoutHeight.isSome
        = true ↔
      ∃ s,
        attrGet (ParsedEvent.mk "send_packet"
            [ParsedAttribute.mk "packet_timeout_height" "1-2"]).attributes
            "packet_timeout_height" = some s ∧
        jsTruthyStr (jsSplit s)[0]? = true ∧ jsTruthyStr (jsSplit s)[1]? = true) :=
  ⟨rfl, c8_parsePacket_timeoutHeight_iff _ _ rfl⟩

/-- The reduce inside splitPendingPackets, started from any accumulator
pair, appends the valid packets to the first component and the invalid
ones to the second, in input order. -/
theorem splitPendingPackets_foldl (ch : Height) (ct : Nat)
    (ps accS accT : List PacketWithMetadata) :
    List.foldl
      (fun acc packet =>
        if packetValid ch ct packet then (acc.1 ++ [packet], acc.2)
        else (acc.1, acc.2 ++ [packet]))
      (accS, accT) ps =
    (accS ++ ps.filter (packetValid ch ct),
     accT ++ ps.filter (fun p => !packetValid ch ct p)) := by
  induction ps generalizing accS accT with
  | nil => simp
  | cons p ps ih =>
    cases hv : packetValid ch ct p with
    | true => simp [List.foldl_cons, hv, ih, List.filter_cons]
    | false => simp [List.foldl_cons, hv, ih, List.filter_cons]

/-- C3: splitPendingPackets is a pure, total, stable partition: toSubmit
is exactly the in-order sublist of valid packets, toTimeout exactly the
in-order sublist of invalid ones, both are sublists of the input (hence
preserve relative order and carry packets unchanged), their
concatenation is a permutation of the input, and every input packet
belongs to exactly one side according to its validity. -/
theorem c3_splitPendingPackets_stable_partition (ch : Height) (ct : Nat)
    (ps : List PacketWithMetadata) :
    (splitPendingPackets ch ct ps).1 = ps.filter (packetValid ch ct) ∧
    (splitPendingPackets ch ct ps).2 = ps.filter (fun p => !packetValid ch ct p) ∧
    List.Perm ((splitPendingPackets ch ct ps).1 ++ (splitPendingPackets ch ct ps).2) ps ∧
    List.Sublist (splitPendingPackets ch ct ps).1 ps ∧
    List.Sublist (splitPendingPackets ch ct ps).2 ps ∧
    (∀ p : PacketWithMetadata,
      (p ∈ (splitPendingPackets ch ct ps).1 ↔ p ∈ ps ∧ packetValid ch ct p = true) ∧
      (p ∈ (splitPendingPackets ch ct ps).2 ↔ p ∈ ps ∧ packetValid ch ct p = false)) := by
  have h1 : splitPendingPackets ch ct ps =
      (ps.filter (packetValid ch ct), ps.filter (fun p => !packetValid ch ct p)) := by
    unfold splitPendingPackets
    simpa using splitPendingPackets_foldl ch ct ps [] []
  rw [h1]
  refine ⟨rfl, rfl, List.filter_append_perm _ _, List.filter_sublist _,
    List.filter_sublist _, ?_⟩
  intro p
  constructor
  · simp [List.mem_filter]
  · simp [List.mem_filter]

/-- C5 amended: subtractBlock keeps the revision number and returns
revisionHeight - count computed with unchecked 64-bit wraparound
(mod 2^64); it never fails. -/
theorem c5_subtractBlock_wraps (h : Height) (n : Nat) :
    (subtractBlock h n).revisionNumber = h.revisionNumber ∧
    ((subtractBlock h n).revisionHeight : Int) =
      ((h.revisionHeight : Int) - (n : Int)) % 18446744073709551616 := by
  constructor
  · rfl
  · unfold subtractBlock
    have hm : n % 18446744073709551616 < 18446744073709551616 :=
      Nat.mod_lt _ (by norm_num)
    push_cast [Nat.cast_sub hm.le]
    omega

/-- The hyphen is not a decimal digit. -/
theorem isDigitChar_dash : isDigitChar '-' = false := by decide

/-- A capture-group match consists of digits only. -/
theorem matchRevDigits_all (ds : List Char) (h : matchRevDigits ds = true) :
    ds.all isDigitChar = true := by
  cases ds with
  | nil => simp [matchRevDigits] at h
  | cons c rest =>
    simp only [matchRevDigits, Bool.and_eq_true] at h
    simp [List.all_cons, h.1.1, h.2]

/-- A list containing a hyphen cannot match the capture group. -/
theorem matchRevDigits_false_of_mem_dash (l : List Char) (h : '-' ∈ l) :
    matchRevDigits l = false := by
  cases l with
  | nil => rfl
  | cons c rest =>
    rcases List.mem_cons.mp h with h | h
    · simp [matchRevDigits, ← h, isDigitChar_dash]
    · have hall : rest.all isDigitChar = false := by
        cases hca : rest.all isDigitChar with
        | false => rfl
        | true =>
          have hx := List.all_eq_true.mp hca _ h
          rw [isDigitChar_dash] at hx
          exact absurd hx (by simp)
      simp [matchRevDigits, hall]

/-- Completeness of the regex scan: when the string decomposes as any
prefix, a hyphen, and a matching digit suffix, the scan finds exactly
that suffix. -/
theorem findRevSuffix_append (pre ds : List Char) (h : matchRevDigits ds = true) :
    findRevSuffix (pre ++ '-' :: ds) = some ds := by
  induction pre with
  | nil => simp [findRevSuffix, h]
  | cons c pre ih =>
    have hmem : '-' ∈ pre ++ '-' :: ds :=
      List.mem_append_right _ (List.mem_cons_self _ _)
    have hm := matchRevDigits_false_of_mem_dash _ hmem
    simp [findRevSuffix, hm, ih]

/-- Soundness of the regex scan: a found suffix really is a matching
digit suffix preceded by a hyphen. -/
theorem findRevSuffix_some (cs ds : List Char) (h : findRevSuffix cs = some ds) :
    ∃ pre, cs = pre ++ '-' :: ds ∧ matchRevDigits ds = true := by
  induction cs with
  | nil => simp [findRevSuffix] at h
  | cons c rest ih =>
    simp only [findRevSuffix] at h
    split at h
    · rename_i hc
      injection h with h
      subst h
      rw [Bool.and_eq_true] at hc
      refine ⟨[], ?_, hc.2⟩
      simp [of_decide_eq_true hc.1]
    · rcases ih h with ⟨pre, hpre, hm⟩
      exact ⟨c :: pre, by rw [hpre]; rfl, hm⟩

/-- takeWhile stops exactly at the first failing element. -/
theorem takeWhile_append_not (p : α → Bool) (l1 l2 : List α) (a : α)
    (h1 : l1.all p = true) (h2 : p a = false) :
    (l1 ++ a :: l2).takeWhile p = l1 := by
  induction l1 with
  | nil => simp [List.takeWhile_cons, h2]
  | cons c l1 ih =>
    have hc : p c = true := (List.all_eq_true.mp h1) c (List.mem_cons_self _ _)
    have h1x : l1.all p = true := by
      rw [List.all_eq_true] at h1 ⊢
      intro x hx
      exact h1 x (List.mem_cons_of_mem _ hx)
    simp [List.takeWhile_cons, hc, ih h1x]

/-- all is preserved by reversal. -/
theorem all_reverse_true (p : α → Bool) (l : List α) (h : l.all p = true) :
    l.reverse.all p = true := by
  rw [List.all_eq_true] at h ⊢
  intro x hx
  exact h x (List.mem_reverse.mp hx)

/-- The trailing digit run of prefix ++ '-' :: digits is the digit
suffix itself. -/
theorem trailingDigitRun_append (pre ds : List Char) (hall : ds.all isDigitChar = true) :
    trailingDigitRun (pre ++ '-' :: ds) = ds := by
  unfold trailingDigitRun
  have hrev : (pre ++ '-' :: ds).reverse = ds.reverse ++ '-' :: pre.reverse := by
    simp
  rw [hrev, takeWhile_append_not _ _ _ _ (all_reverse_true _ _ hall) isDigitChar_dash,
    List.reverse_reverse]

/-- The trailing digit run consists of digits only. -/
theorem trailingDigitRun_all (cs : List Char) :
    (trailingDigitRun cs).all isDigitChar = true := by
  rw [List.all_eq_true]
  intro x hx
  unfold trailingDigitRun at hx
  rw [List.mem_reverse] at hx
  exact List.mem_takeWhile_imp hx

/-- Every character list splits into a front part and its trailing digit
run. -/
theorem trailingDigitRun_decomp (cs : List Char) :
    cs = (cs.reverse.dropWhile isDigitChar).reverse ++ trailingDigitRun cs := by
  conv_lhs =>
    rw [← List.reverse_reverse cs,
      ← List.takeWhile_append_dropWhile isDigitChar cs.reverse]
  rw [List.reverse_append]
  rfl

/-- Taking all but the length of the right part of a concatenation
yields the left part. -/
theorem take_sub_length (l1 l2 : List α) :
    (l1 ++ l2).take ((l1 ++ l2).length - l2.length) = l1 := by
  have h : (l1 ++ l2).length - l2.length = l1.length := by simp
  rw [h, List.take_left]

/-- C9 amended: parseRevisionNumber returns the number in a trailing
'-<digits>' suffix whose first digit is nonzero (reduced to u64 range as
Long.fromString does) and 0 when no such suffix is present — including
when the trailing digit run starts with '0'; the claim's three examples
hold. -/
theorem c9_parseRevisionNumber_amended :
    (∀ s : String, parseRevisionNumber s = amendedRevisionNumber s) ∧
    parseRevisionNumber "testing-4" = 4 ∧
    parseRevisionNumber "testing" = 0 ∧
    parseRevisionNumber "chain-07-3" = 3 := by
  refine ⟨?_, rfl, rfl, rfl⟩
  intro s
  unfold parseRevisionNumber amendedRevisionNumber
  cases hf : findRevSuffix s.data with
  | some ds =>
    rcases findRevSuffix_some _ _ hf with ⟨pre, hdec, hm⟩
    have hall : ds.all isDigitChar = true := matchRevDigits_all _ hm
    obtain ⟨d, rest, rfl⟩ : ∃ d rest, ds = d :: rest := by
      cases ds with
      | nil => simp [matchRevDigits] at hm
      | cons d rest => exact ⟨d, rest, rfl⟩
    have hd0 : d ≠ '0' := by
      simp only [matchRevDigits, Bool.and_eq_true, decide_eq_true_eq] at hm
      exact hm.1.2
    rw [hdec, trailingDigitRun_append _ _ hall]
    have heq : pre ++ '-' :: d :: rest = (pre ++ ['-']) ++ d :: rest := by simp
    rw [heq, take_sub_length, List.getLast?_concat]
    rw [if_pos ⟨by simp, rfl, by simp [hd0]⟩]
  | none =>
    rw [if_neg]
    rintro ⟨h1, h2, h3⟩
    set run : List Char := trailingDigitRun s.data with hrdef
    set front : List Char := (List.dropWhile isDigitChar s.data.reverse).reverse with hfdef
    have hdec : s.data = front ++ run := trailingDigitRun_decomp s.data
    have hfronteq : List.take (s.data.length - run.length) s.data = front := by
      conv_lhs => rw [hdec]
      exact take_sub_length _ _
    rw [hfronteq] at h2
    have hsplit := List.dropLast_append_getLast? '-' (Option.mem_def.mpr h2)
    have hs2 : s.data = front.dropLast ++ '-' :: run := by
      conv_lhs => rw [hdec, ← hsplit]
      simp
    have hallr : run.all isDigitChar = true := by
      rw [hrdef]
      exact trailingDigitRun_all s.data
    obtain ⟨r, rest, hrun⟩ : ∃ r rest, run = r :: rest := by
      cases hcase : run with
      | nil => exact absurd hcase h1
      | cons r rest => exact ⟨r, rest, rfl⟩
    have hmatch : matchRevDigits run = true := by
      rw [hrun] at hallr h3 ⊢
      simp only [List.all_cons, Bool.and_eq_true] at hallr
      have hr0 : r ≠ '0' := by
        intro hcon
        exact h3 (by rw [hcon]; rfl)
      simp [matchRevDigits, hallr.1, hallr.2, hr0]
    have hfind := findRevSuffix_append front.dropLast _ hmatch
    rw [← hs2] at hfind
    rw [hf] at hfind
    exact absurd hfind (by simp)

end TsRelayer
